import Mathlib

/-!
Shallow embedding of the lecture-retrieval and response-selection core of the
Iris AI-tutoring backend, together with proofs about it.

The embedded code comes from:
  * `app/retrieval/lecture_retrieval.py` (chunk merging, query rewriting,
    hypothetical-answer expansion, hybrid search, the retrieval pipeline);
  * `app/pipeline/chat/tutor_chat_pipeline.py` (`__call__` and
    `choose_best_response`);
  * `app/llm/external/openai_chat.py` (`OpenAIChatModel.chat` retry loop).

External collaborators (the LLM, the embedding model, the vector database and
the reranker pipeline) are modelled as function parameters: the theorems below
quantify over their behaviour.  Python-specific behaviour (dict insertion
order, `int(str)` parsing, negative list indices, truthiness of `0`/`None`) is
embedded explicitly.
-/

namespace Pyris

/-! ### Python primitives -/

/-- Value of a nonempty list of decimal digit characters; `none` if the list
is empty or any character is not a digit.  Models the digit part of Python
`int(str)`. -/
def digitsVal (cs : List Char) : Option Nat :=
  if cs.isEmpty then none
  else if cs.all Char.isDigit then
    some (cs.foldl (fun a c => a * 10 + (c.toNat - 48)) 0)
  else none

/-- Strip leading and trailing whitespace from a character list (the
whitespace stripping `int(str)` performs). -/
def pyStripWs (cs : List Char) : List Char :=
  ((cs.dropWhile Char.isWhitespace).reverse.dropWhile
    Char.isWhitespace).reverse

/-- Model of Python `int(s)`: optional surrounding whitespace, an optional
sign, then one or more decimal digits; anything else raises `ValueError`,
modelled as `none`. -/
def pyInt? (s : String) : Option Int :=
  match pyStripWs s.data with
  | '-' :: cs => (digitsVal cs).map (fun n => -(n : Int))
  | '+' :: cs => (digitsVal cs).map (fun n => (n : Int))
  | cs => (digitsVal cs).map (fun n => (n : Int))

/-- Model of Python list indexing `l[i]`: a negative index counts from the
end; an index out of range raises `IndexError`, modelled as `none`. -/
def pyListGet {α : Type} (l : List α) (i : Int) : Option α :=
  let j : Int := if i < 0 then (l.length : Int) + i else i
  if 0 ≤ j then l[j.toNat]? else none

/-- Python truthiness of an `Optional[int]` value: `None` and `0` are falsy,
every other integer is truthy. -/
def pyTruthyInt : Option Int → Bool
  | none => false
  | some n => n ≠ 0

/-! ### Python dict with insertion order

`merge_retrieved_chunks` builds a Python `dict`.  Python dicts preserve
insertion order, and assigning to an existing key replaces the value in place
without moving the entry to the end.  We model the dict as an association
list with exactly that update rule. -/

/-- Assignment into an insertion-ordered dict: replace the value in place if
the key is already present, else append the new entry at the end. -/
def dictInsert {K V : Type} [DecidableEq K] (m : List (K × V)) (k : K) (v : V) :
    List (K × V) :=
  if m.any (fun p => p.1 = k) then
    m.map (fun p => if p.1 = k then (k, v) else p)
  else
    m ++ [(k, v)]

/-- A `for` loop of `m[chunk["id"]] = chunk["properties"]` assignments:
insert every pair of `l` into the dict `init`, in order. -/
def dictInsertAll {K V : Type} [DecidableEq K] (init : List (K × V))
    (l : List (K × V)) : List (K × V) :=
  l.foldl (fun m c => dictInsert m c.1 c.2) init

/-- The keys of a dict, in order. -/
def keysOf {K V : Type} (m : List (K × V)) : List K :=
  m.map Prod.fst

/-- First value bound to `k`, scanning left to right. -/
def alookup {K V : Type} [DecidableEq K] (k : K) : List (K × V) → Option V
  | [] => none
  | p :: l => if p.1 = k then some p.2 else alookup k l

/-- Last value bound to `k` in the list (the value a Python dict built from
the list ends up holding). -/
def lastLookup {K V : Type} [DecidableEq K] (k : K) (l : List (K × V)) :
    Option V :=
  alookup k l.reverse

/-- Deduplication keeping the first occurrence of each element, in order.
(Mathlib `List.dedup` keeps the last occurrence, which is not what a Python
dict does.) -/
def dedupFirst {K : Type} [DecidableEq K] : List K → List K
  | [] => []
  | k :: l => k :: dedupFirst (l.filter (fun x => ¬ x = k))
termination_by l => l.length
decreasing_by
  simp only [List.length_cons]
  exact Nat.lt_succ_of_le (List.length_filter_le _ _)

/-! ### `merge_retrieved_chunks` (lecture_retrieval.py, lines 14 to 29)

```python
def merge_retrieved_chunks(basic_retrieved_lecture_chunks,
                           hyde_retrieved_lecture_chunks) -> List[dict]:
    merged_chunks = {}
    for chunk in basic_retrieved_lecture_chunks:
        merged_chunks[chunk["id"]] = chunk["properties"]
    for chunk in hyde_retrieved_lecture_chunks:
        merged_chunks[chunk["id"]] = chunk["properties"]
    return [properties for uuid, properties in merged_chunks.items()]
```
Chunks are `(id, properties)` pairs. -/
def merge_retrieved_chunks {K V : Type} [DecidableEq K]
    (basic_retrieved_lecture_chunks hyde_retrieved_lecture_chunks :
      List (K × V)) : List V :=
  (dictInsertAll (dictInsertAll [] basic_retrieved_lecture_chunks)
      hyde_retrieved_lecture_chunks).map Prod.snd

/-- The underlying insertion-ordered dict built by `merge_retrieved_chunks`
before its values are extracted. -/
def mergedDict {K V : Type} [DecidableEq K] (a b : List (K × V)) :
    List (K × V) :=
  dictInsertAll (dictInsertAll [] a) b

/-! ### Dict lemmas -/

theorem alookup_append {K V : Type} [DecidableEq K] (k : K)
    (m l : List (K × V)) :
    alookup k (m ++ l) =
      match alookup k m with
      | some v => some v
      | none => alookup k l := by
  induction m with
  | nil => simp [alookup]
  | cons p t ih =>
    by_cases h : p.1 = k
    · simp [alookup, h]
    · simp [alookup, h, ih]

theorem alookup_eq_none_of_any_eq_false {K V : Type} [DecidableEq K] (k : K)
    (m : List (K × V)) (h : m.any (fun p => p.1 = k) = false) :
    alookup k m = none := by
  induction m with
  | nil => rfl
  | cons p t ih =>
    simp only [List.any_cons, Bool.or_eq_false_iff, decide_eq_false_iff_not]
      at h
    simp [alookup, h.1, ih h.2]

theorem alookup_mapReplace {K V : Type} [DecidableEq K] (k k' : K) (v : V)
    (m : List (K × V)) :
    alookup k' (m.map (fun p => if p.1 = k then (k, v) else p)) =
      if k' = k then (alookup k m).map (fun _ => v) else alookup k' m := by
  induction m with
  | nil => simp [alookup]
  | cons p t ih =>
    by_cases hk' : k' = k
    · subst hk'
      by_cases hpk : p.1 = k'
      · simp [alookup, hpk, ih]
      · simp [alookup, hpk, ih]
    · by_cases hpk : p.1 = k
      · have h1 : ¬ k = k' := fun h => hk' h.symm
        have h2 : ¬ p.1 = k' := fun h => hk' ((h.symm.trans hpk))
        simp [alookup, hpk, hk', h1, h2, ih]
      · simp [alookup, hpk, hk', ih]

theorem alookup_isSome_of_any {K V : Type} [DecidableEq K] (k : K)
    (m : List (K × V)) (h : m.any (fun p => p.1 = k) = true) :
    ∃ w, alookup k m = some w := by
  induction m with
  | nil => simp at h
  | cons p t ih =>
    by_cases hpk : p.1 = k
    · exact ⟨p.2, by simp [alookup, hpk]⟩
    · simp only [List.any_cons, Bool.or_eq_true, decide_eq_true_eq] at h
      rcases h with h | h
      · exact absurd h hpk
      · obtain ⟨w, hw⟩ := ih h
        exact ⟨w, by simp [alookup, hpk, hw]⟩

theorem alookup_dictInsert {K V : Type} [DecidableEq K] (m : List (K × V))
    (k k' : K) (v : V) :
    alookup k' (dictInsert m k v) =
      if k' = k then some v else alookup k' m := by
  unfold dictInsert
  by_cases hany : m.any (fun p => p.1 = k) = true
  · rw [if_pos hany, alookup_mapReplace]
    by_cases hk' : k' = k
    · obtain ⟨w, hw⟩ := alookup_isSome_of_any k m hany
      simp [hk', hw]
    · simp [hk']
  · have hfalse : m.any (fun p => p.1 = k) = false := by
      cases h2 : m.any (fun p => p.1 = k) with
      | false => rfl
      | true => exact absurd h2 hany
    have hnone := alookup_eq_none_of_any_eq_false k m hfalse
    rw [if_neg hany, alookup_append]
    by_cases hk' : k' = k
    · subst hk'
      rw [hnone]
      simp [alookup]
    · have hkk : ¬ k = k' := fun h => hk' h.symm
      cases halt : alookup k' m with
      | none => simp [alookup, hk', hkk, halt]
      | some w => simp [hk', halt]

theorem keysOf_dictInsert {K V : Type} [DecidableEq K] (m : List (K × V))
    (k : K) (v : V) :
    keysOf (dictInsert m k v) =
      if k ∈ keysOf m then keysOf m else keysOf m ++ [k] := by
  unfold dictInsert keysOf
  by_cases h : k ∈ m.map Prod.fst
  · have hany : m.any (fun p => p.1 = k) = true := by
      simp only [List.any_eq_true, decide_eq_true_eq]
      obtain ⟨p, hp, hpk⟩ := List.mem_map.mp h
      exact ⟨p, hp, hpk⟩
    simp only [hany, if_true, if_pos h, List.map_map]
    apply List.map_congr_left
    intro p _
    by_cases hpk : p.1 = k
    · simp [Function.comp, hpk]
    · simp [Function.comp, hpk]
  · have hany : m.any (fun p => p.1 = k) = false := by
      simp only [List.any_eq_false, decide_eq_true_eq]
      intro p hp hpk
      exact h (List.mem_map.mpr ⟨p, hp, hpk⟩)
    simp [hany, if_neg h]

theorem dictInsertAll_append {K V : Type} [DecidableEq K]
    (init : List (K × V)) (a b : List (K × V)) :
    dictInsertAll init (a ++ b) = dictInsertAll (dictInsertAll init a) b := by
  unfold dictInsertAll
  exact List.foldl_append _ _ _ _

theorem lastLookup_cons {K V : Type} [DecidableEq K] (k : K) (c : K × V)
    (t : List (K × V)) :
    lastLookup k (c :: t) =
      match lastLookup k t with
      | some v => some v
      | none => if c.1 = k then some c.2 else none := by
  unfold lastLookup
  simp only [List.reverse_cons, alookup_append]
  cases alookup k t.reverse with
  | none => simp [alookup]
  | some w => simp

theorem alookup_dictInsertAll {K V : Type} [DecidableEq K] (k : K)
    (init l : List (K × V)) :
    alookup k (dictInsertAll init l) =
      match lastLookup k l with
      | some v => some v
      | none => alookup k init := by
  induction l generalizing init with
  | nil => simp [dictInsertAll, lastLookup, alookup]
  | cons c t ih =>
    have hstep : dictInsertAll init (c :: t) =
        dictInsertAll (dictInsert init c.1 c.2) t := rfl
    rw [hstep, ih, lastLookup_cons]
    cases lastLookup k t with
    | some w => simp
    | none =>
      simp only [alookup_dictInsert]
      by_cases hck : c.1 = k
      · simp [hck]
      · have : ¬ k = c.1 := fun h => hck h.symm
        simp [hck, this]

theorem dedupFirst_cons {K : Type} [DecidableEq K] (k : K) (l : List K) :
    dedupFirst (k :: l) =
      k :: dedupFirst (l.filter (fun x => ¬ x = k)) := by
  simp only [dedupFirst]

theorem keysOf_dictInsertAll {K V : Type} [DecidableEq K]
    (init l : List (K × V)) :
    keysOf (dictInsertAll init l) =
      keysOf init ++
        dedupFirst ((keysOf l).filter (fun x => ¬ x ∈ keysOf init)) := by
  induction l generalizing init with
  | nil => simp [dictInsertAll, dedupFirst, keysOf]
  | cons c t ih =>
    have hstep : dictInsertAll init (c :: t) =
        dictInsertAll (dictInsert init c.1 c.2) t := rfl
    rw [hstep, ih, keysOf_dictInsert]
    by_cases hc : c.1 ∈ keysOf init
    · rw [if_pos hc]
      have hfilter : (keysOf (c :: t)).filter (fun x => ¬ x ∈ keysOf init) =
          (keysOf t).filter (fun x => ¬ x ∈ keysOf init) := by
        show (c.1 :: keysOf t).filter _ = _
        rw [List.filter_cons_of_neg (by simp [hc])]
      rw [hfilter]
    · rw [if_neg hc]
      have hkeys : keysOf (c :: t) = c.1 :: keysOf t := rfl
      rw [hkeys, List.filter_cons_of_pos (by simp [hc]), dedupFirst_cons,
        List.filter_filter]
      rw [List.filter_congr
        (q := fun x => ¬ x ∈ keysOf init ++ [c.1]) (fun x _ => by
          by_cases h1 : x = c.1 <;> by_cases h2 : x ∈ keysOf init <;>
            simp [h1, h2])]
      simp [List.append_assoc]
      exact congrArg dedupFirst
        (List.filter_congr (fun x _ => Bool.and_comm _ _))

theorem mem_dedupFirst {K : Type} [DecidableEq K] (x : K) (l : List K) :
    x ∈ dedupFirst l ↔ x ∈ l := by
  induction l using dedupFirst.induct with
  | case1 => simp [dedupFirst]
  | case2 k t ih =>
    rw [dedupFirst_cons, List.mem_cons, ih, List.mem_filter]
    by_cases hx : x = k
    · simp [hx]
    · simp [hx]

theorem nodup_dedupFirst {K : Type} [DecidableEq K] (l : List K) :
    (dedupFirst l).Nodup := by
  induction l using dedupFirst.induct with
  | case1 => simp [dedupFirst]
  | case2 k t ih =>
    rw [dedupFirst_cons]
    refine List.nodup_cons.mpr ⟨?_, ih⟩
    intro hmem
    have := (mem_dedupFirst _ _).mp hmem
    simp at this

theorem alookup_eq_none_of_not_mem {K V : Type} [DecidableEq K] (k : K)
    (l : List (K × V)) (h : k ∉ keysOf l) : alookup k l = none := by
  induction l with
  | nil => rfl
  | cons p t ih =>
    simp only [keysOf, List.map_cons, List.mem_cons] at h
    push_neg at h
    have : ¬ p.1 = k := fun he => h.1 he.symm
    simp only [alookup, if_neg this]
    exact ih (by simpa [keysOf] using h.2)

theorem alookup_of_mem_nodup {K V : Type} [DecidableEq K] (k : K) (v : V)
    (l : List (K × V)) :
    (k, v) ∈ l → (keysOf l).Nodup → alookup k l = some v := by
  induction l with
  | nil => intro hmem _; cases hmem
  | cons p t ih =>
    intro hmem hnd
    simp only [keysOf, List.map_cons, List.nodup_cons] at hnd
    rcases List.mem_cons.mp hmem with hp | ht
    · rw [← hp]
      simp [alookup]
    · have hk : k ∈ List.map Prod.fst t :=
        List.mem_map.mpr ⟨(k, v), ht, rfl⟩
      have hne : ¬ p.1 = k := by
        intro he
        rw [he] at hnd
        exact hnd.1 hk
      simp only [alookup, if_neg hne]
      exact ih ht hnd.2

theorem lastLookup_of_mem_nodup {K V : Type} [DecidableEq K] (k : K) (v : V)
    (l : List (K × V)) (hmem : (k, v) ∈ l) (hnd : (keysOf l).Nodup) :
    lastLookup k l = some v := by
  unfold lastLookup
  apply alookup_of_mem_nodup k v l.reverse (List.mem_reverse.mpr hmem)
  have hrev : keysOf l.reverse = (keysOf l).reverse := by
    simp [keysOf]
  rw [hrev]
  exact List.nodup_reverse.mpr hnd

theorem lastLookup_eq_none_of_not_mem {K V : Type} [DecidableEq K] (k : K)
    (l : List (K × V)) (h : k ∉ keysOf l) : lastLookup k l = none := by
  unfold lastLookup
  apply alookup_eq_none_of_not_mem
  simpa [keysOf] using h

theorem assoc_ext {K V : Type} [DecidableEq K] (m₁ : List (K × V)) :
    ∀ (m₂ : List (K × V)), (keysOf m₁).Nodup → keysOf m₁ = keysOf m₂ →
      (∀ k, alookup k m₁ = alookup k m₂) → m₁ = m₂ := by
  induction m₁ with
  | nil =>
    intro m₂ _ hkeys _
    cases m₂ with
    | nil => rfl
    | cons q t₂ => simp [keysOf] at hkeys
  | cons p t₁ ih =>
    intro m₂ hnd hkeys hval
    cases m₂ with
    | nil => simp [keysOf] at hkeys
    | cons q t₂ =>
      simp only [keysOf, List.map_cons, List.cons.injEq] at hkeys
      simp only [keysOf, List.map_cons, List.nodup_cons] at hnd
      have hv := hval p.1
      simp only [alookup, if_pos rfl, if_pos hkeys.1.symm] at hv
      have hp : p = q := by
        obtain ⟨k₁, v₁⟩ := p
        obtain ⟨k₂, v₂⟩ := q
        simp only at hkeys hv
        cases hv
        cases hkeys.1
        rfl
      subst hp
      have htail : ∀ k, alookup k t₁ = alookup k t₂ := by
        intro k
        by_cases hk : p.1 = k
        · have hn₁ : k ∉ keysOf t₁ := by
            intro hmem
            rw [← hk] at hmem
            exact hnd.1 (by simpa [keysOf] using hmem)
          have hn₂ : k ∉ keysOf t₂ := by
            intro hmem
            rw [show keysOf t₂ = keysOf t₁ from hkeys.2.symm] at hmem
            exact hn₁ hmem
          rw [alookup_eq_none_of_not_mem k t₁ hn₁,
            alookup_eq_none_of_not_mem k t₂ hn₂]
        · have hv := hval k
          simpa only [alookup, if_neg hk] using hv
      exact congrArg (p :: ·) (ih t₂ hnd.2 hkeys.2 htail)

theorem lastLookup_append {K V : Type} [DecidableEq K] (k : K)
    (a b : List (K × V)) :
    lastLookup k (a ++ b) =
      match lastLookup k b with
      | some v => some v
      | none => lastLookup k a := by
  unfold lastLookup
  rw [List.reverse_append, alookup_append]

theorem mergedDict_eq_insertAll_append {K V : Type} [DecidableEq K]
    (a b : List (K × V)) :
    mergedDict a b = dictInsertAll [] (a ++ b) := by
  unfold mergedDict
  rw [dictInsertAll_append]

theorem alookup_pyDict {K V : Type} [DecidableEq K] (k : K)
    (l : List (K × V)) :
    alookup k (dictInsertAll [] l) = lastLookup k l := by
  rw [alookup_dictInsertAll]
  cases lastLookup k l with
  | none => rfl
  | some w => rfl

theorem keysOf_pyDict {K V : Type} [DecidableEq K] (l : List (K × V)) :
    keysOf (dictInsertAll [] l) = dedupFirst (keysOf l) := by
  rw [keysOf_dictInsertAll]
  have : (keysOf l).filter (fun x => ¬ x ∈ ([] : List K)) = keysOf l :=
    List.filter_eq_self.mpr (fun a _ => by simp)
  simp only [keysOf, List.map_nil] at this ⊢
  rw [this]
  rfl

theorem alookup_mergedDict {K V : Type} [DecidableEq K] (k : K)
    (a b : List (K × V)) :
    alookup k (mergedDict a b) =
      match lastLookup k b with
      | some v => some v
      | none => lastLookup k a := by
  rw [mergedDict_eq_insertAll_append, alookup_pyDict, lastLookup_append]

theorem keysOf_mergedDict {K V : Type} [DecidableEq K] (a b : List (K × V)) :
    keysOf (mergedDict a b) = dedupFirst (keysOf a ++ keysOf b) := by
  rw [mergedDict_eq_insertAll_append, keysOf_pyDict]
  have : keysOf (a ++ b) = keysOf a ++ keysOf b := by
    simp [keysOf]
  rw [this]

theorem dictInsertAll_self {K V : Type} [DecidableEq K] (A : List (K × V)) :
    dictInsertAll (dictInsertAll [] A) A = dictInsertAll [] A := by
  apply assoc_ext
  · rw [show keysOf (dictInsertAll (dictInsertAll [] A) A) =
        keysOf (dictInsertAll [] A) from ?_]
    · rw [keysOf_pyDict]
      exact nodup_dedupFirst _
    · rw [keysOf_dictInsertAll (dictInsertAll [] A) A]
      have hsub : (keysOf A).filter
          (fun x => ¬ x ∈ keysOf (dictInsertAll [] A)) = [] := by
        rw [List.filter_eq_nil_iff]
        intro x hx
        rw [keysOf_pyDict]
        simp [mem_dedupFirst, hx]
      rw [hsub]
      simp [dedupFirst]
  · rw [keysOf_dictInsertAll (dictInsertAll [] A) A]
    have hsub : (keysOf A).filter
        (fun x => ¬ x ∈ keysOf (dictInsertAll [] A)) = [] := by
      rw [List.filter_eq_nil_iff]
      intro x hx
      rw [keysOf_pyDict]
      simp [mem_dedupFirst, hx]
    rw [hsub]
    simp [dedupFirst]
  · intro k
    rw [alookup_dictInsertAll, alookup_pyDict]
    cases lastLookup k A with
    | none => rfl
    | some w => rfl

/-- C4: for every pair of chunk lists `A` and `B` (each with distinct chunk
ids, as one retrieval result has) and every chunk id `k`: if `k` occurs in
both lists, the merged result carries the properties of `B` (the hyde path)
for `k`, never those of `A`; if `k` occurs in only one list its properties
are unchanged; and each id occupies the position of its first occurrence
across `A` followed by `B` (an overwrite replaces the value in place, it does
not move the entry to the end). -/
theorem merge_precedence_hyde_wins {K V : Type} [DecidableEq K]
    (A B : List (K × V)) (k : K) (v : V)
    (hA : (keysOf A).Nodup) (hB : (keysOf B).Nodup) :
    merge_retrieved_chunks A B = (mergedDict A B).map Prod.snd ∧
    ((k, v) ∈ B → alookup k (mergedDict A B) = some v) ∧
    (k ∉ keysOf B → (k, v) ∈ A → alookup k (mergedDict A B) = some v) ∧
    keysOf (mergedDict A B) = dedupFirst (keysOf A ++ keysOf B) := by
  refine ⟨rfl, ?_, ?_, keysOf_mergedDict A B⟩
  · intro hmem
    rw [alookup_mergedDict, lastLookup_of_mem_nodup k v B hmem hB]
  · intro hout hmem
    rw [alookup_mergedDict, lastLookup_eq_none_of_not_mem k B hout,
      lastLookup_of_mem_nodup k v A hmem hA]

/-- Witness for C4 at the concrete input from the spec scenario: chunk id 1
occurs in both lists (`"old"` in the basic list, `"new"` in the hyde list);
the hyde value wins and positions follow first occurrence across both
lists. -/
theorem merge_precedence_hyde_wins_witness :
    alookup 1 (mergedDict [(1, "old"), (2, "a")] [(1, "new"), (3, "b")]) =
      some "new" ∧
    alookup 2 (mergedDict [(1, "old"), (2, "a")] [(1, "new"), (3, "b")]) =
      some "a" ∧
    keysOf (mergedDict [(1, "old"), (2, "a")] [(1, "new"), (3, "b")]) =
      dedupFirst (keysOf [(1, "old"), (2, "a")] ++
        keysOf [(1, "new"), (3, "b")]) := by
  refine ⟨?_, ?_, ?_⟩
  · exact (merge_precedence_hyde_wins [(1, "old"), (2, "a")]
      [(1, "new"), (3, "b")] 1 "new" (by decide) (by decide)).2.1
      (by simp)
  · exact (merge_precedence_hyde_wins [(1, "old"), (2, "a")]
      [(1, "new"), (3, "b")] 2 "a" (by decide) (by decide)).2.2.1
      (by decide) (by simp)
  · exact (merge_precedence_hyde_wins [(1, "old"), (2, "a")]
      [(1, "new"), (3, "b")] 1 "new" (by decide) (by decide)).2.2.2

/-- C5: merging a chunk list with itself yields the deduplicated property
list of that list: the result is exactly the values of the Python dict built
from `A` alone, each distinct id contributes one property bag at the position
of its first occurrence in `A`, and the result has no duplicate ids. -/
theorem merge_idempotent_dedup {K V : Type} [DecidableEq K]
    (A : List (K × V)) :
    merge_retrieved_chunks A A = (dictInsertAll [] A).map Prod.snd ∧
    keysOf (dictInsertAll [] A) = dedupFirst (keysOf A) ∧
    (keysOf (dictInsertAll [] A)).Nodup := by
  refine ⟨?_, keysOf_pyDict A, ?_⟩
  · unfold merge_retrieved_chunks
    rw [dictInsertAll_self]
  · rw [keysOf_pyDict]
    exact nodup_dedupFirst _

/-! ### Lecture schema and hybrid-search call contract

Modelled from the spec: `app/vector_database/lecture_schema.py` is not under
src (only its callers are).  Per the spec data model, a retrieval chunk has a
property bag with distinct named properties, among them page text content,
page image description, course name, lecture name, page number, course id,
lecture id and course language.  We model the schema enum as an inductive
whose constructors stand for the distinct property-name strings (the `.value`
of each Python enum member); distinctness of the names is distinctness of
constructors. -/

/-- Modelled from the spec: the `LectureSchema` enum of
`app/vector_database/lecture_schema.py` (file missing from src); one
constructor per distinct property name. -/
inductive LectureSchemaProp : Type
  | COURSE_ID
  | LECTURE_ID
  | COURSE_NAME
  | COURSE_LANGUAGE
  | LECTURE_NAME
  | PAGE_TEXT_CONTENT
  | PAGE_IMAGE_DESCRIPTION
  | PAGE_NUMBER
  deriving DecidableEq

/-- A weaviate property filter `Filter.by_property(name).equal(value)`. -/
structure PropFilter where
  property : LectureSchemaProp
  value : Int
  deriving DecidableEq

/-- The argument record of one `collection.query.hybrid(...)` call issued by
`search_in_db` — the call contract of the external vector-store
capability. -/
structure HybridCall where
  query : String
  filters : Option PropFilter
  alpha : ℚ
  vector : List ℚ
  return_properties : List LectureSchemaProp
  limit : Nat

/-- Embedding of the call `LectureRetrieval.search_in_db` issues
(lecture_retrieval.py, lines 159 to 182).  The Python guard is
`if course_id` (truthiness: `None` and `0` are falsy), and the filtered
property is `LectureSchema.LECTURE_ID`, compared for equality against the
`course_id` argument. -/
def search_in_db_call (embed : String → List ℚ) (query : String)
    (hybrid_factor : ℚ) (result_limit : Nat) (course_id : Option Int) :
    HybridCall :=
  ⟨query,
   (if pyTruthyInt course_id then
      some ⟨LectureSchemaProp.LECTURE_ID, course_id.getD 0⟩
    else none),
   hybrid_factor,
   embed query,
   [LectureSchemaProp.PAGE_TEXT_CONTENT,
    LectureSchemaProp.PAGE_IMAGE_DESCRIPTION,
    LectureSchemaProp.COURSE_NAME,
    LectureSchemaProp.LECTURE_NAME,
    LectureSchemaProp.PAGE_NUMBER],
   result_limit⟩

/-! ### Messages, completion arguments and prompts -/

/-- `IrisMessageRole` from the domain model. -/
inductive IrisMessageRole : Type
  | SYSTEM
  | USER
  | ASSISTANT
  | TOOL
  deriving DecidableEq

/-- A `PyrisMessage`: a sender role and its content parts.  Content parts are
collapsed to their text content (the retrieval code only ever reads
`contents[0].text_content` and only ever builds single-text-content
messages). -/
structure PyrisMessage where
  sender : IrisMessageRole
  contents : List String
  deriving DecidableEq

/-- `message.contents[0].text_content`.  Total with default `""`; every
message this code builds or consumes has a first text content. -/
def firstContentText (m : PyrisMessage) : String :=
  m.contents.headD ""

/-- `CompletionArguments(temperature=..., max_tokens=...)`. -/
structure CompletionArguments where
  temperature : ℚ
  max_tokens : Nat
  deriving DecidableEq

/-- Embedding of the list comprehension in `rewrite_student_query`
(lecture_retrieval.py, lines 100 to 105):

```python
text_chat_history = [
    chat_history[-i - 1].contents[0].text_content
    for i in range(min(10, len(chat_history)))
][::-1]
```
`chat_history[-i - 1]` is the element at index `len - i - 1` (always in
range here since `i < min(10, len)`). -/
def text_chat_history (chat_history : List PyrisMessage) : List String :=
  ((List.range (min 10 chat_history.length)).map
      (fun i => firstContentText
        (chat_history.getD (chat_history.length - i - 1)
          ⟨IrisMessageRole.SYSTEM, []⟩))).reverse

/-- `"\n".join(f" {msg}" for msg in text_chat_history)`. -/
def messages_formatted (tch : List String) : String :=
  String.intercalate "\n" (tch.map (fun msg => " " ++ msg))

/-- The f-string template of `rewrite_student_query` (lecture_retrieval.py,
lines 108 to 129), with its four placeholders.  Prompt wording is an opaque
format string per the spec; the text is reproduced with the template's line
structure. -/
def rewrite_prompt (num_messages : Nat) (msgs : String)
    (student_query : String) (course_language : String) : String :=
  s!"
                You are serving as an AI assistant on the Artemis Learning Platform at
                 the Technical University of Munich.
                Here are the last {num_messages} student messages in the chat history:
                    {msgs}
                The student has sent the following message:
                    {student_query}.
                If there is a reference to a previous message,
                please rewrite the query by removing any reference to previous messages
                 and replacing them with the details needed.
                Ensure the context and semantic meaning are preserved.
                Translate the rewritten message into {course_language}
                 if it\x27s not already in {course_language}.
                 ANSWER ONLY WITH THE REWRITTEN MESSAGE. DO NOT ADD ANY ADDITIONAL INFORMATION.
                Here is an example how you should rewrite the message:
                    EXAMPLE 1:
                    message 1: Here are the last 1 student messages in the chat history:
                    message 2: Can you explain me the tower of hanoi slides step by step
                    current message: Can you explain me it\x27s code
                Response:
                        Can you explain the code of the tower of hanoi.
                "

/-- The f-string template of `rewrite_elaborated_query`
(lecture_retrieval.py, lines 145 to 148). -/
def elaborate_prompt (student_query : String) (course_language : String)
    (course_name : String) : String :=
  s!"You are an AI assistant operating on the Artemis Learning Platform at the Technical University of
             Munich. A student has sent a query regarding the lecture {course_name}. The query is: \x27{student_query}\x27.
             Please provide a response in {course_language}. Craft your response to closely reflect the style and
             content of university lecture materials."

/-! ### The retrieval environment and `LectureRetrieval` methods -/

/-- One object of a hybrid-search response: `obj.uuid.int` and
`obj.properties`. -/
structure WeaviateObject (P : Type) where
  uuid_int : Nat
  properties : P

/-- The external collaborators of `LectureRetrieval`, as abstract functions:
`courseLanguage` is the result of the step-1 fetch of the indexed course
language (on an empty index the Python code raises there; that step is not
at issue in any claim and is modelled as a total field), `llmChat` is
`BasicRequestHandler.chat`, `llmEmbed` is the embedding handler, `db` is the
vector store answering one hybrid call, and `reranker` is
`RerankerPipeline.__call__` on paragraphs, query and chat history, returning
index strings. -/
structure RetrievalEnv (P : Type) where
  courseLanguage : String
  llmChat : List PyrisMessage → CompletionArguments → PyrisMessage
  llmEmbed : String → List ℚ
  db : HybridCall → List (WeaviateObject P)
  reranker : List P → String → List PyrisMessage → List String

/-- Embedding of `LectureRetrieval.rewrite_student_query`
(lecture_retrieval.py, lines 93 to 137): build the transcript of the last
(up to) 10 messages in chronological order, build the prompt, issue one chat
call at temperature 0.2 with max 1000 tokens, and return the response text
verbatim. -/
def rewrite_student_query {P : Type} (env : RetrievalEnv P)
    (chat_history : List PyrisMessage) (student_query : String)
    (course_language : String) : String :=
  let tch := text_chat_history chat_history
  let num_messages := tch.length
  let mf := messages_formatted tch
  let prompt := rewrite_prompt num_messages mf student_query course_language
  let iris_message : PyrisMessage := ⟨IrisMessageRole.SYSTEM, [prompt]⟩
  firstContentText (env.llmChat [iris_message] ⟨1 / 5, 1000⟩)

/-- Embedding of `LectureRetrieval.rewrite_elaborated_query`
(lecture_retrieval.py, lines 139 to 157). -/
def rewrite_elaborated_query {P : Type} (env : RetrievalEnv P)
    (student_query : String) (course_language : String)
    (course_name : String) : String :=
  let prompt := elaborate_prompt student_query course_language course_name
  let iris_message : PyrisMessage := ⟨IrisMessageRole.SYSTEM, [prompt]⟩
  firstContentText (env.llmChat [iris_message] ⟨1 / 5, 1000⟩)

/-- Embedding of `LectureRetrieval.search_in_db` (lecture_retrieval.py,
lines 159 to 182): issue one hybrid call built by `search_in_db_call` and
return its objects. -/
def search_in_db {P : Type} (env : RetrievalEnv P) (query : String)
    (hybrid_factor : ℚ) (result_limit : Nat) (course_id : Option Int) :
    List (WeaviateObject P) :=
  env.db (search_in_db_call env.llmEmbed query hybrid_factor result_limit
    course_id)

/-- Resolution of one reranker index string against the merged chunk list:
`merged_chunks[int(i)]`.  `none` models the `ValueError` of `int` on a
non-numeric string or the `IndexError` of an out-of-range index. -/
def resolveIdx {P : Type} (merged_chunks : List P) (i : String) : Option P :=
  (pyInt? i).bind (fun n => pyListGet merged_chunks n)

/-- Embedding of the final list comprehension of `retrieval_pipeline`
(lecture_retrieval.py, line 91):
`[merged_chunks[int(i)] for i in selected_chunks_index]`.  The comprehension
is evaluated left to right and the first malformed index raises
(`ValueError` for a non-numeric string, `IndexError` for an out-of-range
index); there is no surrounding try/except. -/
def selectChunks {P : Type} (merged_chunks : List P) :
    List String → Except String (List P)
  | [] => Except.ok []
  | i :: rest =>
    match pyInt? i with
    | none => Except.error "ValueError"
    | some n =>
      match pyListGet merged_chunks n with
      | none => Except.error "IndexError"
      | some c =>
        match selectChunks merged_chunks rest with
        | Except.ok l => Except.ok (c :: l)
        | Except.error e => Except.error e

/-- Embedding of `LectureRetrieval.retrieval_pipeline`
(lecture_retrieval.py, lines 43 to 91). -/
def retrieval_pipeline {P : Type} (env : RetrievalEnv P)
    (chat_history : List PyrisMessage) (student_query : String)
    (result_limit : Nat) (course_name : String) (course_id : Option Int) :
    Except String (List P) :=
  let course_language := env.courseLanguage
  let rewritten_query :=
    rewrite_student_query env chat_history student_query course_language
  let hypothetical_answer_query :=
    rewrite_elaborated_query env rewritten_query course_language course_name
  let response :=
    search_in_db env rewritten_query (1 / 2) result_limit course_id
  let response_hyde :=
    search_in_db env hypothetical_answer_query (1 / 2) result_limit course_id
  let basic_retrieved_lecture_chunks :=
    response.map (fun obj => (obj.uuid_int, obj.properties))
  let hyde_retrieved_lecture_chunks :=
    response_hyde.map (fun obj => (obj.uuid_int, obj.properties))
  let merged_chunks :=
    merge_retrieved_chunks basic_retrieved_lecture_chunks
      hyde_retrieved_lecture_chunks
  let selected_chunks_index :=
    env.reranker merged_chunks student_query chat_history
  selectChunks merged_chunks selected_chunks_index

/-! ### Lemmas about index selection -/

theorem selectChunks_ok_of_all_resolve {P : Type} (merged : List P)
    (l : List String) (h : ∀ i ∈ l, (resolveIdx merged i).isSome) :
    selectChunks merged l = Except.ok (l.filterMap (resolveIdx merged)) := by
  induction l with
  | nil => simp [selectChunks]
  | cons i rest ih =>
    have hi := h i (by simp)
    obtain ⟨c, hc⟩ := Option.isSome_iff_exists.mp hi
    unfold resolveIdx at hc
    cases hpi : pyInt? i with
    | none => rw [hpi] at hc; simp at hc
    | some n =>
      rw [hpi] at hc
      simp only [Option.some_bind] at hc
      have hrest := ih (fun j hj => h j (List.mem_cons_of_mem i hj))
      have hres : resolveIdx merged i = some c := by
        simp [resolveIdx, hpi, hc]
      simp [selectChunks, hpi, hc, hrest, List.filterMap_cons, hres]

theorem selectChunks_error_of_bad_index {P : Type} (merged : List P)
    (l : List String) (h : ∃ i ∈ l, resolveIdx merged i = none) :
    ∃ e, selectChunks merged l = Except.error e := by
  induction l with
  | nil => simp at h
  | cons i rest ih =>
    by_cases hi : resolveIdx merged i = none
    · unfold resolveIdx at hi
      cases hpi : pyInt? i with
      | none => exact ⟨"ValueError", by simp [selectChunks, hpi]⟩
      | some n =>
        rw [hpi] at hi
        simp only [Option.some_bind] at hi
        exact ⟨"IndexError", by simp [selectChunks, hpi, hi]⟩
    · obtain ⟨j, hj, hjr⟩ := h
      have hjrest : j ∈ rest := by
        rcases List.mem_cons.mp hj with hje | hjr2
        · exact absurd (hje ▸ hjr) hi
        · exact hjr2
      obtain ⟨e, he⟩ := ih ⟨j, hjrest, hjr⟩
      obtain ⟨c, hc⟩ := Option.ne_none_iff_exists.mp hi
      unfold resolveIdx at hc
      cases hpi : pyInt? i with
      | none => rw [hpi] at hc; simp at hc
      | some n =>
        rw [hpi] at hc
        simp only [Option.some_bind] at hc
        exact ⟨e, by simp [selectChunks, hpi, ← hc, he]⟩

/-! ### Claim theorems about the retrieval pipeline -/

/-- C3: the retrieval pipeline composes as rewrite, then
hypothetical-answer expansion of the rewritten query, then two searches
(one on the rewritten query, one on the hypothetical answer, both with
alpha 0.5 and the same result limit), then merge, then rerank — and the
reranker is invoked with the original (non-rewritten) student query, so
whenever every returned index resolves, the final output is the merged
chunk list indexed by the reranker output in order. -/
theorem retrieval_pipeline_composition {P : Type} (env : RetrievalEnv P)
    (chat_history : List PyrisMessage) (student_query : String)
    (result_limit : Nat) (course_name : String) (course_id : Option Int)
    (rewritten hyde : String) (merged : List P)
    (hrw : rewritten = rewrite_student_query env chat_history student_query
      env.courseLanguage)
    (hhy : hyde = rewrite_elaborated_query env rewritten env.courseLanguage
      course_name)
    (hmg : merged = merge_retrieved_chunks
      ((search_in_db env rewritten (1 / 2) result_limit course_id).map
        (fun obj => (obj.uuid_int, obj.properties)))
      ((search_in_db env hyde (1 / 2) result_limit course_id).map
        (fun obj => (obj.uuid_int, obj.properties))))
    (hvalid : ∀ i ∈ env.reranker merged student_query chat_history,
      (resolveIdx merged i).isSome) :
    retrieval_pipeline env chat_history student_query result_limit
        course_name course_id =
      Except.ok ((env.reranker merged student_query chat_history).filterMap
        (resolveIdx merged)) := by
  subst hrw hhy hmg
  exact selectChunks_ok_of_all_resolve _ _ hvalid

/-- C1 counterexample environment: the store returns one chunk (properties
`"c1"`) to every search, and the reranker answers with the non-numeric
index string `"abc"`. -/
def envBadIdx : RetrievalEnv String :=
  ⟨"English",
   fun _ _ => ⟨IrisMessageRole.ASSISTANT, ["rewritten"]⟩,
   fun _ => [],
   fun _ => [⟨1, "c1"⟩],
   fun _ _ _ => ["abc"]⟩

/-- C1 counterexample: with a merged candidate list of one chunk and a
reranker output of `["abc"]` (a non-numeric index string),
`retrieval_pipeline` raises (`ValueError` from `int("abc")`) instead of
returning a degraded-but-valid result. -/
theorem retrieval_pipeline_raises_on_nonnumeric :
    retrieval_pipeline envBadIdx [] "What is recursion?" 10 "CS" none =
      Except.error "ValueError" := by
  rfl

/-- C1 amended: at this call site there is no defensive fallback.  An empty
reranker output yields the empty list without raising, but any returned
index that is non-numeric or out of range makes `retrieval_pipeline` raise
(propagate an exception); malformed entries are not skipped and the
candidate list is not returned in original order. -/
theorem retrieval_pipeline_fallback_only_for_empty {P : Type}
    (env : RetrievalEnv P) (chat_history : List PyrisMessage)
    (student_query : String) (result_limit : Nat) (course_name : String)
    (course_id : Option Int) (merged : List P)
    (hmg : merged = merge_retrieved_chunks
      ((search_in_db env
          (rewrite_student_query env chat_history student_query
            env.courseLanguage) (1 / 2) result_limit course_id).map
        (fun obj => (obj.uuid_int, obj.properties)))
      ((search_in_db env
          (rewrite_elaborated_query env
            (rewrite_student_query env chat_history student_query
              env.courseLanguage) env.courseLanguage course_name)
          (1 / 2) result_limit course_id).map
        (fun obj => (obj.uuid_int, obj.properties)))) :
    (env.reranker merged student_query chat_history = [] →
      retrieval_pipeline env chat_history student_query result_limit
        course_name course_id = Except.ok []) ∧
    ((∃ i ∈ env.reranker merged student_query chat_history,
        resolveIdx merged i = none) →
      ∃ e, retrieval_pipeline env chat_history student_query result_limit
        course_name course_id = Except.error e) := by
  subst hmg
  constructor
  · intro hempty
    show selectChunks _ _ = _
    rw [hempty]
    rfl
  · intro hbad
    exact selectChunks_error_of_bad_index _ _ hbad

/-- Witness for the amended C1: in `envBadIdx` the reranker returns
`["abc"]`, which does not resolve, so the pipeline returns an error; in the
same environment with a reranker returning `[]` the pipeline returns
`Except.ok []`. -/
theorem retrieval_pipeline_fallback_only_for_empty_witness :
    (∃ e, retrieval_pipeline envBadIdx [] "What is recursion?" 10 "CS" none =
      Except.error e) ∧
    retrieval_pipeline
        ⟨"English",
         fun _ _ => ⟨IrisMessageRole.ASSISTANT, ["rewritten"]⟩,
         fun _ => [],
         fun _ => [⟨1, "c1"⟩],
         fun _ _ _ => []⟩ [] "What is recursion?" 10 "CS" none =
      Except.ok [] := by
  constructor
  · exact (retrieval_pipeline_fallback_only_for_empty envBadIdx []
      "What is recursion?" 10 "CS" none _ rfl).2
      ⟨"abc", by simp [envBadIdx], by decide⟩
  · exact (retrieval_pipeline_fallback_only_for_empty
      ⟨"English",
       fun _ _ => ⟨IrisMessageRole.ASSISTANT, ["rewritten"]⟩,
       fun _ => [],
       fun _ => [⟨1, "c1"⟩],
       fun _ _ _ => []⟩ [] "What is recursion?" 10 "CS" none _ rfl).1 rfl

/-- Witness for C3: a concrete environment where the reranker answers
`["0"]`; every index resolves and the pipeline returns exactly the merged
list indexed by the reranker output. -/
theorem retrieval_pipeline_composition_witness :
    retrieval_pipeline
        ⟨"English",
         fun _ _ => ⟨IrisMessageRole.ASSISTANT, ["rewritten"]⟩,
         fun _ => [],
         fun _ => [⟨1, "c1"⟩],
         fun _ _ _ => ["0"]⟩ [] "What is recursion?" 10 "CS" none =
      Except.ok ["c1"] := by
  have h := retrieval_pipeline_composition
    ⟨"English",
     fun _ _ => ⟨IrisMessageRole.ASSISTANT, ["rewritten"]⟩,
     fun _ => [],
     fun _ => [⟨1, "c1"⟩],
     fun _ _ _ => ["0"]⟩ [] "What is recursion?" 10 "CS" none _ _ _
    rfl rfl rfl (by decide)
  rw [h]
  rfl

/-- C6 (code behaviour at the failing input): with `course_id = 5`,
`search_in_db` issues the hybrid search with a filter on the `LECTURE_ID`
property equal to 5 — not on the `COURSE_ID` property as the spec states —
and with `course_id = None` it issues the search with no filter. -/
theorem search_in_db_filters_by_lecture_id :
    (search_in_db_call (fun _ => []) "q" (1 / 2) 10 (some 5)).filters =
      some ⟨LectureSchemaProp.LECTURE_ID, 5⟩ ∧
    (⟨LectureSchemaProp.LECTURE_ID, 5⟩ : PropFilter) ≠
      ⟨LectureSchemaProp.COURSE_ID, 5⟩ ∧
    (search_in_db_call (fun _ => []) "q" (1 / 2) 10 none).filters = none := by
  exact ⟨rfl, by decide, rfl⟩

/-- C10: a falsy `course_id` (`None` or `0`) makes `search_in_db` issue the
hybrid search unfiltered (`filters = None`); only a truthy (non-zero,
non-`None`) `course_id` produces a filter. -/
theorem search_in_db_course_id_zero_unfiltered (embed : String → List ℚ)
    (query : String) (hybrid_factor : ℚ) (result_limit : Nat) :
    (search_in_db_call embed query hybrid_factor result_limit none).filters =
      none ∧
    (search_in_db_call embed query hybrid_factor result_limit
      (some 0)).filters = none ∧
    ∀ n : Int, (search_in_db_call embed query hybrid_factor result_limit
      (some n)).filters =
        if n = 0 then none
        else some ⟨LectureSchemaProp.LECTURE_ID, n⟩ := by
  refine ⟨rfl, rfl, ?_⟩
  intro n
  by_cases hn : n = 0
  · simp [search_in_db_call, pyTruthyInt, hn]
  · simp [search_in_db_call, pyTruthyInt, hn]

/-! ### The query rewriter transcript (C7) -/

theorem lastWindow_aux (h : List PyrisMessage) :
    ∀ k, k ≤ h.length →
      ((List.range k).map (fun i => firstContentText
        (h.getD (h.length - i - 1) ⟨IrisMessageRole.SYSTEM, []⟩))).reverse =
      (h.map firstContentText).drop (h.length - k) := by
  intro k
  induction k with
  | zero =>
    intro _
    simp only [List.range_zero, List.map_nil, List.reverse_nil,
      Nat.sub_zero]
    exact (List.drop_eq_nil_of_le (by simp)).symm
  | succ k ih =>
    intro hk1
    have hk : k ≤ h.length := Nat.le_of_succ_le hk1
    have hlt : h.length - (k + 1) < (h.map firstContentText).length := by
      simp only [List.length_map]
      omega
    have hlth : h.length - (k + 1) < h.length := by omega
    rw [List.range_succ, List.map_append, List.reverse_append]
    simp only [List.map_cons, List.map_nil, List.reverse_cons,
      List.reverse_nil, List.nil_append, List.singleton_append]
    rw [ih hk]
    have h1 : h.length - (k + 1) + 1 = h.length - k := by omega
    rw [List.drop_eq_getElem_cons hlt, h1]
    congr 1
    rw [List.getElem_map]
    rw [List.getD_eq_getElem h ⟨IrisMessageRole.SYSTEM, []⟩
      (by omega : h.length - k - 1 < h.length)]
    simp only [Nat.sub_sub]

/-- C7: the query rewriter builds its transcript from exactly the last
`min(10, n)` chat-history messages, arranged chronologically (the transcript
is the suffix of the history of that length, in order); it issues the chat
call on the prompt built from that transcript and returns the response text
verbatim; and for an empty history the transcript section is empty while the
call still proceeds. -/
theorem rewriter_transcript_last_ten {P : Type} (env : RetrievalEnv P)
    (h : List PyrisMessage) (student_query : String)
    (course_language : String) :
    text_chat_history h =
      (h.map firstContentText).drop (h.length - min 10 h.length) ∧
    (text_chat_history h).length = min 10 h.length ∧
    rewrite_student_query env h student_query course_language =
      firstContentText (env.llmChat
        [⟨IrisMessageRole.SYSTEM,
          [rewrite_prompt (min 10 h.length)
            (messages_formatted (text_chat_history h)) student_query
            course_language]⟩] ⟨1 / 5, 1000⟩) ∧
    messages_formatted (text_chat_history ([] : List PyrisMessage)) = "" ∧
    rewrite_student_query env [] student_query course_language =
      firstContentText (env.llmChat
        [⟨IrisMessageRole.SYSTEM,
          [rewrite_prompt 0 "" student_query course_language]⟩]
        ⟨1 / 5, 1000⟩) := by
  have hlen : (text_chat_history h).length = min 10 h.length := by
    simp [text_chat_history]
  refine ⟨?_, hlen, ?_, rfl, rfl⟩
  · exact lastWindow_aux h (min 10 h.length) (Nat.min_le_right 10 h.length)
  · show firstContentText (env.llmChat
      [⟨IrisMessageRole.SYSTEM,
        [rewrite_prompt (text_chat_history h).length
          (messages_formatted (text_chat_history h)) student_query
          course_language]⟩] ⟨1 / 5, 1000⟩) = _
    rw [hlen]

/-! ### `TutorChatPipeline.choose_best_response` (C2)

tutor_chat_pipeline.py, lines 113 to 149.  The reranker pipeline is an
abstract collaborator that may raise (modelled as `Except.error`).  The
prompt-file read and prompt construction are opaque wording and do not
influence the control flow modelled here.

```python
paragraph_index = self.reranker_pipeline(paragraphs=..., query=...,
                                         prompt=..., chat_history=...)[0]
try:
    chosen_paragraph = paragraphs[int(paragraph_index)]
except Exception as e:
    chosen_paragraph = paragraphs[0]
    logger.error(...)
return chosen_paragraph
```
Only `paragraphs[int(paragraph_index)]` sits inside the try; the reranker
call itself and the `[0]` on its result sit outside it. -/

/-- Embedding of `TutorChatPipeline.choose_best_response`. -/
def choose_best_response
    (rerank : List String → String → List PyrisMessage →
      Except String (List String))
    (paragraphs : List String) (query : String)
    (chat_history : List PyrisMessage) : Except String String :=
  match rerank paragraphs query chat_history with
  | Except.error e => Except.error e
  | Except.ok idxs =>
    match idxs.head? with
    | none => Except.error "IndexError"
    | some paragraph_index =>
      match resolveIdx paragraphs paragraph_index with
      | some chosen_paragraph => Except.ok chosen_paragraph
      | none =>
        match paragraphs.head? with
        | some p => Except.ok p
        | none => Except.error "IndexError"

/-- C2 counterexample: with a non-empty candidate list, a reranker that
raises makes `choose_best_response` propagate the exception, and a reranker
that returns an empty result makes it raise `IndexError` — in both cases it
does not return `candidates[0]`. -/
theorem choose_best_response_raises :
    choose_best_response (fun _ _ _ => Except.error "boom") ["a", "b"]
      "q" [] = Except.error "boom" ∧
    choose_best_response (fun _ _ _ => Except.ok []) ["a", "b"]
      "q" [] = Except.error "IndexError" := by
  exact ⟨rfl, rfl⟩

/-- C2 amended: for a non-empty candidate list, when the reranker call
returns normally with a non-empty result, a first index that is non-numeric
or out of range falls back to `candidates[0]` without raising (and a
resolving first index returns that candidate); but an exception raised by
the reranker propagates unchanged, and an empty reranker result raises
`IndexError`. -/
theorem choose_best_response_fallback
    (rerank : List String → String → List PyrisMessage →
      Except String (List String))
    (paragraphs : List String) (query : String)
    (chat_history : List PyrisMessage) (p0 : String)
    (hne : paragraphs.head? = some p0) :
    (∀ i rest, rerank paragraphs query chat_history = Except.ok (i :: rest) →
      (∀ c, resolveIdx paragraphs i = some c →
        choose_best_response rerank paragraphs query chat_history =
          Except.ok c) ∧
      (resolveIdx paragraphs i = none →
        choose_best_response rerank paragraphs query chat_history =
          Except.ok p0)) ∧
    (∀ e, rerank paragraphs query chat_history = Except.error e →
      choose_best_response rerank paragraphs query chat_history =
        Except.error e) ∧
    (rerank paragraphs query chat_history = Except.ok [] →
      choose_best_response rerank paragraphs query chat_history =
        Except.error "IndexError") := by
  refine ⟨?_, ?_, ?_⟩
  · intro i rest hok
    constructor
    · intro c hc
      unfold choose_best_response
      rw [hok]
      simp [hc]
    · intro hc
      unfold choose_best_response
      rw [hok]
      simp [hc, hne]
  · intro e herr
    unfold choose_best_response
    rw [herr]
  · intro hempty
    unfold choose_best_response
    rw [hempty]
    rfl

/-- Witness for the amended C2, at the spec scenario: two candidates and a
reranker whose raw first index is `"not a number"`; the selector returns the
candidate at index 0.  Also exercises the propagation branch on a raising
reranker. -/
theorem choose_best_response_fallback_witness :
    choose_best_response (fun _ _ _ => Except.ok ["not a number"])
      ["a", "b"] "q" [] = Except.ok "a" ∧
    choose_best_response (fun _ _ _ => Except.error "boom") ["a", "b"]
      "q2" [] = Except.error "boom" := by
  constructor
  · exact ((choose_best_response_fallback
      (fun _ _ _ => Except.ok ["not a number"]) ["a", "b"] "q" [] "a"
      rfl).1 "not a number" [] rfl).2 (by decide)
  · exact (choose_best_response_fallback
      (fun _ _ _ => Except.error "boom") ["a", "b"] "q2" [] "a"
      rfl).2.1 "boom" rfl

/-! ### `TutorChatPipeline.__call__` (C9)

tutor_chat_pipeline.py, lines 83 to 111:

```python
lecture_chat_thread = threading.Thread(
    target=self._run_lecture_chat_pipeline(execution_dto), args=(dto,))
tutor_chat_thread = threading.Thread(
    target=self._run_tutor_chat_pipeline(dto), args=(dto,))
lecture_chat_thread.start()
tutor_chat_thread.start()
response = self.choose_best_response(
    [self.tutor_chat_response, self.lecture_chat_response], ...)
```
`threading.Thread(target=f(x), args=...)` CALLS `f(x)` while constructing
the `Thread` object (its return value, `None`, becomes the thread target).
So `_run_lecture_chat_pipeline` runs to completion synchronously first and
writes `self.lecture_chat_response`; then `_run_tutor_chat_pipeline` runs to
completion and writes `self.tutor_chat_response`; the two `start()` calls
spawn threads with no target, which do nothing; only then is
`choose_best_response` invoked on the two slots.  We model the successful
execution of `__call__` as the ordered trace of these events. -/

/-- One observable event of `TutorChatPipeline.__call__`. -/
inductive TutorCallEvent : Type
  | writeLectureResponse (value : String)
  | writeTutorResponse (value : String)
  | threadStart
  | selectorCall (tutor_response lecture_response : String)
  deriving DecidableEq

/-- The event trace of one successful `TutorChatPipeline.__call__`, given
the values produced by the lecture-chat and tutor-chat sub-pipelines. -/
def tutor_chat_call (lecture_result tutor_result : String) :
    List TutorCallEvent :=
  [TutorCallEvent.writeLectureResponse lecture_result,
   TutorCallEvent.writeTutorResponse tutor_result,
   TutorCallEvent.threadStart,
   TutorCallEvent.threadStart,
   TutorCallEvent.selectorCall tutor_result lecture_result]

/-- C9: in every invocation, the selector call happens only after both
candidate-answer slots have been written (no first-to-finish early exit),
it reads exactly the two written values, and each branch writes only its
own distinct slot (exactly one write per slot in the whole trace). -/
theorem tutor_call_joins_before_select (lv tv : String) :
    (∀ k a b, (tutor_chat_call lv tv).get? k =
        some (TutorCallEvent.selectorCall a b) →
      a = tv ∧ b = lv ∧
      (∃ i, i < k ∧ (tutor_chat_call lv tv).get? i =
        some (TutorCallEvent.writeTutorResponse tv)) ∧
      (∃ j, j < k ∧ (tutor_chat_call lv tv).get? j =
        some (TutorCallEvent.writeLectureResponse lv))) ∧
    (tutor_chat_call lv tv).countP
      (fun e => match e with
        | TutorCallEvent.writeLectureResponse _ => true
        | _ => false) = 1 ∧
    (tutor_chat_call lv tv).countP
      (fun e => match e with
        | TutorCallEvent.writeTutorResponse _ => true
        | _ => false) = 1 ∧
    (tutor_chat_call lv tv).countP
      (fun e => match e with
        | TutorCallEvent.selectorCall _ _ => true
        | _ => false) = 1 := by
  refine ⟨?_, rfl, rfl, rfl⟩
  intro k a b hk
  match k with
  | 0 => exact absurd hk (by simp [tutor_chat_call])
  | 1 => exact absurd hk (by simp [tutor_chat_call])
  | 2 => exact absurd hk (by simp [tutor_chat_call])
  | 3 => exact absurd hk (by simp [tutor_chat_call])
  | 4 =>
    have h4 : (tutor_chat_call lv tv).get? 4 =
        some (TutorCallEvent.selectorCall tv lv) := rfl
    rw [h4] at hk
    obtain ⟨ha, hb⟩ : a = tv ∧ b = lv := by
      cases hk
      exact ⟨rfl, rfl⟩
    exact ⟨ha, hb, ⟨1, by omega, rfl⟩, ⟨0, by omega, rfl⟩⟩
  | (n + 5) => exact absurd hk (by simp [tutor_chat_call])

/-- Witness for C9: in the concrete trace with lecture value `"L"` and
tutor value `"T"`, the selector call at position 4 has both slot writes at
earlier positions. -/
theorem tutor_call_joins_before_select_witness :
    (∃ i, i < 4 ∧ (tutor_chat_call "L" "T").get? i =
      some (TutorCallEvent.writeTutorResponse "T")) ∧
    (∃ j, j < 4 ∧ (tutor_chat_call "L" "T").get? j =
      some (TutorCallEvent.writeLectureResponse "L")) := by
  obtain ⟨-, -, hi, hj⟩ :=
    (tutor_call_joins_before_select "L" "T").1 4 "T" "L" rfl
  exact ⟨hi, hj⟩

/-! ### `OpenAIChatModel.chat` retry loop (C8)

openai_chat.py, lines 155 to 226:

```python
retries = 5
backoff_factor = 2
initial_delay = 1
for attempt in range(retries):
    try:
        response = client.chat.completions.create(...)
        choice = response.choices[0]
        if choice.finish_reason == "content_filter":
            raise ContentFilterFinishReasonError()
        return convert_to_iris_message(choice.message, usage, model)
    except (APIError, APITimeoutError, RateLimitError):
        wait_time = initial_delay * (backoff_factor**attempt)
        time.sleep(wait_time)
raise Exception(f"Failed to get response from OpenAI after 5 retries")
```
`ContentFilterFinishReasonError` is not a subclass of any of `APIError`,
`APITimeoutError` or `RateLimitError` (in the openai library it derives
from `OpenAIError` directly), so raising it inside the try escapes the
`except` clause and aborts the loop immediately; the three caught
exception types are the transient provider errors.  Each attempt is
modelled by an oracle giving that attempt's outcome, and the result records
the outcome together with the list of sleeps performed. -/

/-- Outcome of one `client.chat.completions.create(...)` attempt. -/
inductive AttemptOutcome : Type
  | success (msg : PyrisMessage)
  | transientError
  | contentFilter

/-- Final outcome of `OpenAIChatModel.chat`. -/
inductive ChatOutcome : Type
  | ok (msg : PyrisMessage)
  | contentFilterError
  | retriesExhausted
  deriving DecidableEq

def openai_chat_retries : Nat := 5

def openai_chat_backoff_factor : Nat := 2

def openai_chat_initial_delay : Nat := 1

/-- The `for attempt in range(retries)` loop, with the remaining
iteration count as fuel; returns the outcome and the list of sleep
durations performed (in order). -/
def chat_retry_loop (oracle : Nat → AttemptOutcome) :
    Nat → Nat → ChatOutcome × List Nat
  | _, 0 => (ChatOutcome.retriesExhausted, [])
  | attempt, fuel + 1 =>
    match oracle attempt with
    | AttemptOutcome.success msg => (ChatOutcome.ok msg, [])
    | AttemptOutcome.contentFilter => (ChatOutcome.contentFilterError, [])
    | AttemptOutcome.transientError =>
      let rest := chat_retry_loop oracle (attempt + 1) fuel
      (rest.1,
        openai_chat_initial_delay * openai_chat_backoff_factor ^ attempt ::
          rest.2)

/-- Embedding of `OpenAIChatModel.chat`. -/
def openai_chat (oracle : Nat → AttemptOutcome) : ChatOutcome × List Nat :=
  chat_retry_loop oracle 0 openai_chat_retries

theorem chat_retry_loop_transient_prefix (oracle : Nat → AttemptOutcome) :
    ∀ k a fuel, k ≤ fuel →
      (∀ j, j < k → oracle (a + j) = AttemptOutcome.transientError) →
      chat_retry_loop oracle a fuel =
        ((chat_retry_loop oracle (a + k) (fuel - k)).1,
          (List.range k).map (fun j =>
            openai_chat_initial_delay *
              openai_chat_backoff_factor ^ (a + j)) ++
            (chat_retry_loop oracle (a + k) (fuel - k)).2) := by
  intro k
  induction k with
  | zero =>
    intro a fuel _ _
    simp
  | succ k ih =>
    intro a fuel hk h
    cases fuel with
    | zero => omega
    | succ f =>
      have ha : oracle a = AttemptOutcome.transientError := by
        have := h 0 (Nat.succ_pos k)
        simpa using this
      have hrest := ih (a + 1) f (by omega)
        (fun j hj => by
          have := h (j + 1) (by omega)
          rw [show a + (j + 1) = a + 1 + j from by omega] at this
          exact this)
      show (match oracle a with
        | AttemptOutcome.success msg => (ChatOutcome.ok msg, [])
        | AttemptOutcome.contentFilter =>
            (ChatOutcome.contentFilterError, [])
        | AttemptOutcome.transientError =>
          let rest := chat_retry_loop oracle (a + 1) f
          (rest.1,
            openai_chat_initial_delay *
              openai_chat_backoff_factor ^ a :: rest.2)) = _
      rw [ha]
      simp only [hrest]
      have hrange : (List.range (k + 1)).map (fun j =>
          openai_chat_initial_delay *
            openai_chat_backoff_factor ^ (a + j)) =
        openai_chat_initial_delay * openai_chat_backoff_factor ^ a ::
          (List.range k).map (fun j =>
            openai_chat_initial_delay *
              openai_chat_backoff_factor ^ (a + 1 + j)) := by
        rw [List.range_succ_eq_map, List.map_cons, List.map_map]
        refine congrArg₂ _ (by simp) ?_
        apply List.map_congr_left
        intro j _
        simp only [Function.comp]
        rw [show a + (j + 1) = a + 1 + j from by omega]
      rw [hrange]
      have hidx : a + (k + 1) = a + 1 + k := by omega
      have hfuel : f + 1 - (k + 1) = f - k := by omega
      rw [hidx, hfuel]
      rfl

/-- C8: transient provider errors (APIError, APITimeoutError,
RateLimitError) are retried with exponential backoff over exactly 5
attempts with delays 1, 2, 4, 8, 16 seconds, after which a failure is
raised; a content-filter rejection is never retried — it aborts immediately
on the attempt where it occurs, with only the earlier transient delays
slept; and a success after transient errors returns the converted message
after the delays of the failed attempts. -/
theorem openai_chat_retry_policy (oracle : Nat → AttemptOutcome) :
    ((∀ j, j < 5 → oracle j = AttemptOutcome.transientError) →
      openai_chat oracle =
        (ChatOutcome.retriesExhausted, [1, 2, 4, 8, 16])) ∧
    (∀ k, k < 5 → (∀ j, j < k → oracle j = AttemptOutcome.transientError) →
      oracle k = AttemptOutcome.contentFilter →
      openai_chat oracle =
        (ChatOutcome.contentFilterError,
          (List.range k).map (fun j => 2 ^ j))) ∧
    (∀ k msg, k < 5 →
      (∀ j, j < k → oracle j = AttemptOutcome.transientError) →
      oracle k = AttemptOutcome.success msg →
      openai_chat oracle =
        (ChatOutcome.ok msg, (List.range k).map (fun j => 2 ^ j))) := by
  refine ⟨?_, ?_, ?_⟩
  · intro h
    have := chat_retry_loop_transient_prefix oracle 5 0 5 (le_refl 5)
      (fun j hj => by simpa using h j hj)
    unfold openai_chat openai_chat_retries
    rw [this]
    rfl
  · intro k hk h hcf
    have := chat_retry_loop_transient_prefix oracle k 0 5 (by omega)
      (fun j hj => by simpa using h j hj)
    unfold openai_chat openai_chat_retries
    rw [this]
    obtain ⟨f, hf⟩ : ∃ f, 5 - k = f + 1 := ⟨4 - k, by omega⟩
    rw [hf]
    have hstep : chat_retry_loop oracle (0 + k) (f + 1) =
        (ChatOutcome.contentFilterError, []) := by
      show (match oracle (0 + k) with
        | AttemptOutcome.success msg => (ChatOutcome.ok msg, [])
        | AttemptOutcome.contentFilter =>
            (ChatOutcome.contentFilterError, [])
        | AttemptOutcome.transientError =>
          let rest := chat_retry_loop oracle (0 + k + 1) f
          (rest.1,
            openai_chat_initial_delay *
              openai_chat_backoff_factor ^ (0 + k) :: rest.2)) = _
      rw [Nat.zero_add, hcf]
    rw [hstep]
    simp [openai_chat_initial_delay, openai_chat_backoff_factor]
  · intro k msg hk h hsucc
    have := chat_retry_loop_transient_prefix oracle k 0 5 (by omega)
      (fun j hj => by simpa using h j hj)
    unfold openai_chat openai_chat_retries
    rw [this]
    obtain ⟨f, hf⟩ : ∃ f, 5 - k = f + 1 := ⟨4 - k, by omega⟩
    rw [hf]
    have hstep : chat_retry_loop oracle (0 + k) (f + 1) =
        (ChatOutcome.ok msg, []) := by
      show (match oracle (0 + k) with
        | AttemptOutcome.success msg => (ChatOutcome.ok msg, [])
        | AttemptOutcome.contentFilter =>
            (ChatOutcome.contentFilterError, [])
        | AttemptOutcome.transientError =>
          let rest := chat_retry_loop oracle (0 + k + 1) f
          (rest.1,
            openai_chat_initial_delay *
              openai_chat_backoff_factor ^ (0 + k) :: rest.2)) = _
      rw [Nat.zero_add, hsucc]
    rw [hstep]
    simp [openai_chat_initial_delay, openai_chat_backoff_factor]

/-- Witness for C8: a provider that always fails transiently exhausts the
5 attempts with delays 1, 2, 4, 8, 16; one that fails transiently twice and
then rejects for content filtering aborts immediately after delays 1, 2;
one that fails transiently twice and then succeeds returns the message
after delays 1, 2. -/
theorem openai_chat_retry_policy_witness :
    openai_chat (fun _ => AttemptOutcome.transientError) =
      (ChatOutcome.retriesExhausted, [1, 2, 4, 8, 16]) ∧
    openai_chat (fun j => if j < 2 then AttemptOutcome.transientError
      else AttemptOutcome.contentFilter) =
      (ChatOutcome.contentFilterError, [1, 2]) ∧
    openai_chat (fun j => if j < 2 then AttemptOutcome.transientError
      else AttemptOutcome.success ⟨IrisMessageRole.ASSISTANT, ["ans"]⟩) =
      (ChatOutcome.ok ⟨IrisMessageRole.ASSISTANT, ["ans"]⟩, [1, 2]) := by
  refine ⟨?_, ?_, ?_⟩
  · exact (openai_chat_retry_policy
      (fun _ => AttemptOutcome.transientError)).1 (fun j _ => rfl)
  · have h := (openai_chat_retry_policy
      (fun j => if j < 2 then AttemptOutcome.transientError
        else AttemptOutcome.contentFilter)).2.1 2 (by omega)
      (fun j hj => by rw [if_pos hj]) rfl
    rw [h]
    rfl
  · have h := (openai_chat_retry_policy
      (fun j => if j < 2 then AttemptOutcome.transientError
        else AttemptOutcome.success
          ⟨IrisMessageRole.ASSISTANT, ["ans"]⟩)).2.2 2
      ⟨IrisMessageRole.ASSISTANT, ["ans"]⟩ (by omega)
      (fun j hj => by rw [if_pos hj]) rfl
    rw [h]
    rfl

end Pyris
